import Mathlib

/-!
Verification of the Game Engine and Synchronization Core of the
ultimate-chess-platform frontend.

The Game Session lives in src/chess_frontend/src/hooks/useChessGame.ts and wraps the
external chess.js library (the Rules Engine of the spec, not part of the source tree).
The Rules Engine is therefore embedded as an abstract interface, `Engine`, whose
fields mirror exactly the chess.js operations the source calls; the session
operations (makeMove, undo, redo, loadFromFen), the clock tick, the status
derivation, the move advisor (src/chess_frontend/src/utils/chessAi.ts) and the
multiplayer client (src/chess_frontend/src/hooks/useMultiplayer.ts) are translated
from the source as pure state-passing functions over that interface.  Small concrete
engine instances (ToyA, ToyB, ToyD) provide executable witnesses and
counterexamples.
-/

namespace ChessCore

/-- Piece colors as used by the chess.js wrapper: white and black. -/
inductive Color where
  | w
  | b
deriving DecidableEq

/-- The opposite color; used for the checkmate winner in deriveStatus. -/
def Color.other : Color → Color
  | Color.w => Color.b
  | Color.b => Color.w

/-- Promotion piece letters (useChessGame.ts, type PromotionPiece). -/
inductive PromotionPiece where
  | q
  | r
  | b
  | n
deriving DecidableEq

/-- MoveInput (useChessGame.ts): an untrusted move request with a from square, a to
square and an optional promotion piece. -/
structure MoveInput where
  fromSq : String
  toSq : String
  promotion : Option PromotionPiece
deriving DecidableEq

/-- A verbose chess.js Move record, as consumed by the source (color of the mover,
from and to squares, optional promotion piece, standard algebraic text). -/
structure MoveRec where
  color : Color
  fromSq : String
  toSq : String
  promotion : Option PromotionPiece
  san : String
deriving DecidableEq

/-- Piece type letters, the keys of PIECE_VALUES in chessAi.ts. -/
inductive PieceType where
  | p
  | n
  | b
  | r
  | q
  | k
deriving DecidableEq

/-- Modelled from the spec: the Rules Engine interface of spec section 4.1, realized
in the repository by the external chess.js library, which is not part of the source
tree.  Each field mirrors one chess.js operation the source files invoke on a Chess
instance.  A move request is rejected either by a thrown exception, modelled as
Except.error carrying the message (the behaviour the try/catch in makeMove
anticipates), or by a null return, modelled as Except.ok none (the behaviour the
null checks in makeMove and redo anticipate); a successful move returns the created
Move record and the mutated instance.  load models the Chess constructor applied to
a board-notation string, which throws on malformed input. -/
structure Engine (σ : Type) where
  init : σ
  move : σ → MoveInput → Except String (Option (MoveRec × σ))
  play : σ → MoveRec → σ
  undo : σ → Option (MoveRec × σ)
  load : String → Except String σ
  fen : σ → String
  history : σ → List MoveRec
  movesVerbose : σ → List MoveRec
  movesSan : σ → List String
  isCheckmate : σ → Bool
  isStalemate : σ → Bool
  isDraw : σ → Bool
  isCheck : σ → Bool
  isGameOver : σ → Bool
  turn : σ → Color
  board : σ → List (Option (PieceType × Color))

/-- ClockState (useChessGame.ts lines 14-19). -/
structure ClockState where
  initialMs : Int
  whiteMs : Int
  blackMs : Int
  running : Bool
deriving DecidableEq

/-- GameStatus (useChessGame.ts lines 8-12). -/
inductive GameStatus where
  | playing (inCheck : Bool)
  | checkmate (winner : Color)
  | stalemate
  | draw
deriving DecidableEq

/-- The state owned by the useChessGame hook: the live chess.js instance (chessRef),
the fen and history React state, the last move highlight, the redo stack (redoRef)
and the clock. -/
structure SessionState (σ : Type) where
  engine : σ
  fen : String
  history : List MoveRec
  lastMove : Option (String × String)
  redo : List MoveInput
  clock : ClockState
deriving DecidableEq

/-- deriveStatus (useChessGame.ts lines 25-34): checkmate with the opposite color as
winner, then stalemate, then draw, otherwise playing with the check flag. -/
def deriveStatus {σ : Type} (E : Engine σ) (chess : σ) : GameStatus :=
  if E.isCheckmate chess then GameStatus.checkmate (E.turn chess).other
  else if E.isStalemate chess then GameStatus.stalemate
  else if E.isDraw chess then GameStatus.draw
  else GameStatus.playing (E.isCheck chess)

/-- The status the session exposes (useChessGame.ts lines 88-89): deriveStatus is
applied to a fresh instance reconstructed from the bare fen string alone
(derivedChess = new Chess(fen)); none models the constructor throwing, a path the
session never reaches because its fen values come from the engine. -/
def sessionStatus {σ : Type} (E : Engine σ) (st : SessionState σ) : Option GameStatus :=
  match E.load st.fen with
  | Except.ok chess => some (deriveStatus E chess)
  | Except.error _ => none

/-- The result type of makeMove (useChessGame.ts line 138): ok with the Move record,
or a failure carrying only a message string. -/
inductive MoveOutcome where
  | ok (move : MoveRec)
  | err (error : String)
deriving DecidableEq

/-- makeMove (useChessGame.ts lines 137-161): delegates to chess.move inside a
try/catch; on a null result returns the generic Illegal move failure; on success
clears the redo stack, records the last move, syncs fen and history from the
instance, and sets the clock running when it was running already or the pre-move
history state was empty (first move starts the clock); a thrown engine error is
caught and surfaced as a failure result, with no state mutated. -/
def makeMove {σ : Type} (E : Engine σ) (st : SessionState σ) (mv : MoveInput) :
    MoveOutcome × SessionState σ :=
  match E.move st.engine mv with
  | Except.ok none => (MoveOutcome.err "Illegal move", st)
  | Except.ok (some (result, chess)) =>
      (MoveOutcome.ok result,
        { engine := chess
          fen := E.fen chess
          history := E.history chess
          lastMove := some (result.fromSq, result.toSq)
          redo := []
          clock := { st.clock with running := st.clock.running || st.history.isEmpty } })
  | Except.error e => (MoveOutcome.err e, st)

/-- undo (useChessGame.ts lines 163-177): pops the last move from the instance,
pushes its request form onto the redo stack, clears the last move highlight and
syncs fen and history; returns false when there was nothing to undo. -/
def undo {σ : Type} (E : Engine σ) (st : SessionState σ) : Bool × SessionState σ :=
  match E.undo st.engine with
  | none => (false, st)
  | some (undone, chess) =>
      (true,
        { st with
            engine := chess
            redo := st.redo ++ [{ fromSq := undone.fromSq, toSq := undone.toSq,
                                  promotion := undone.promotion }]
            lastMove := none
            fen := E.fen chess
            history := E.history chess })

/-- redo (useChessGame.ts lines 179-190): pops the redo stack (the pop mutates the
ref before the move is attempted) and replays the request with chess.move.  Unlike
makeMove there is no try/catch around the call, so an engine rejection signalled by
a thrown exception escapes redo; the Except.error result models that escaping
exception, while Except.ok carries the boolean the source returns. -/
def redo {σ : Type} (E : Engine σ) (st : SessionState σ) :
    Except String Bool × SessionState σ :=
  match st.redo.getLast? with
  | none => (Except.ok false, st)
  | some next =>
      let st1 : SessionState σ := { st with redo := st.redo.dropLast }
      match E.move st1.engine next with
      | Except.error e => (Except.error e, st1)
      | Except.ok none => (Except.ok false, st1)
      | Except.ok (some (result, chess)) =>
          (Except.ok true,
            { st1 with
                engine := chess
                lastMove := some (result.fromSq, result.toSq)
                fen := E.fen chess
                history := E.history chess })

/-- The result type of loadFromFen (useChessGame.ts lines 201-218). -/
inductive LoadOutcome where
  | ok
  | err (error : String)
deriving DecidableEq

/-- loadFromFen (useChessGame.ts lines 201-218): constructs a fresh instance from the
text inside a try/catch; on success replaces the instance wholesale, clears the redo
stack and last move, syncs fen and history from the fresh instance and pauses the
clock; on a constructor throw nothing has been assigned yet, so the failure result
is returned with every piece of prior state untouched. -/
def loadFromFen {σ : Type} (E : Engine σ) (st : SessionState σ) (newFen : String) :
    LoadOutcome × SessionState σ :=
  match E.load newFen with
  | Except.ok chess =>
      (LoadOutcome.ok,
        { engine := chess
          fen := E.fen chess
          history := E.history chess
          lastMove := none
          redo := []
          clock := { st.clock with running := false } })
  | Except.error e => (LoadOutcome.err e, st)

/-- The clock tick callback (useChessGame.ts lines 114-130): a no-op unless the
status is playing and the clock is running; otherwise it decrements the active
color by the fixed 250 ms tick, clamped at 0 by Math.max, leaving the other color
untouched. -/
def clockTick (status : GameStatus) (active : Color) (c : ClockState) : ClockState :=
  match status with
  | GameStatus.playing _ =>
      if c.running then
        if active = Color.w then { c with whiteMs := max 0 (c.whiteMs - 250) }
        else { c with blackMs := max 0 (c.blackMs - 250) }
      else c
  | _ => c

/-- The initial hook state (useChessGame.ts lines 62-79): a fresh instance, fen and
history read from it, no last move, an empty redo stack, and a paused clock filled
with the configured initial allotment. -/
def initialSession {σ : Type} (E : Engine σ) (initialClockMs : Int) : SessionState σ :=
  { engine := E.init
    fen := E.fen E.init
    history := E.history E.init
    lastMove := none
    redo := []
    clock := { initialMs := initialClockMs
               whiteMs := initialClockMs
               blackMs := initialClockMs
               running := false } }

/-- PIECE_VALUES (chessAi.ts lines 5-12).  JavaScript numbers are modelled as exact
rationals; every value used by the advisor is exactly representable. -/
def PIECE_VALUES : PieceType → ℚ
  | PieceType.p => 100
  | PieceType.n => 320
  | PieceType.b => 330
  | PieceType.r => 500
  | PieceType.q => 900
  | PieceType.k => 20000

/-- evaluatePosition (chessAi.ts lines 14-29): the signed material sum over the
board plus a small mobility bonus of 0.2 per available move, signed by the side to
move.  chess.moves() returns the SAN list, whose length is the legal move count. -/
def evaluatePosition {σ : Type} (E : Engine σ) (chess : σ) : ℚ :=
  let score := (E.board chess).foldl
    (fun acc cell =>
      match cell with
      | none => acc
      | some (t, c) =>
          acc + (if c = Color.w then PIECE_VALUES t else -PIECE_VALUES t))
    0
  let mobility : ℚ := ((E.movesSan chess).length : ℚ)
  score + (if E.turn chess = Color.w then 1 else -1) * mobility * (1 / 5)

/-- A JavaScript number as used by the search: negative infinity, a finite value,
or positive infinity.  Every comparison the advisor performs is between values of
this type. -/
inductive JNum where
  | ninf
  | fin (q : ℚ)
  | pinf
deriving DecidableEq

/-- Strict less-than on search scores, matching the JavaScript comparison between
non-NaN numbers. -/
def JNum.ltb : JNum → JNum → Bool
  | JNum.ninf, JNum.ninf => false
  | JNum.ninf, _ => true
  | JNum.fin _, JNum.ninf => false
  | JNum.fin a, JNum.fin b => decide (a < b)
  | JNum.fin _, JNum.pinf => true
  | JNum.pinf, _ => false

/-- Non-strict comparison, used for the beta less-or-equal alpha pruning cutoff. -/
def JNum.leb (a b : JNum) : Bool := !(JNum.ltb b a)

/-- Math.max on search scores. -/
def jmax (a b : JNum) : JNum := if JNum.ltb a b then b else a

/-- Math.min on search scores. -/
def jmin (a b : JNum) : JNum := if JNum.ltb b a then b else a

/-- The maximizing loop of minimax (chessAi.ts lines 44-53): fold over the move
list, applying each move to a scratch copy (the mutate-then-undo pair of the source
is modelled by playing the move on a value), raising best and alpha, and breaking
once beta is less than or equal to alpha. -/
def searchMax {σ : Type} (E : Engine σ) (mm : σ → JNum → JNum → JNum) (chess : σ) :
    List MoveRec → JNum → JNum → JNum → JNum
  | [], best, _, _ => best
  | m :: rest, best, alpha, beta =>
      let best1 := jmax best (mm (E.play chess m) alpha beta)
      let alpha1 := jmax alpha best1
      if JNum.leb beta alpha1 then best1
      else searchMax E mm chess rest best1 alpha1 beta

/-- The minimizing loop of minimax (chessAi.ts lines 56-64). -/
def searchMin {σ : Type} (E : Engine σ) (mm : σ → JNum → JNum → JNum) (chess : σ) :
    List MoveRec → JNum → JNum → JNum → JNum
  | [], best, _, _ => best
  | m :: rest, best, alpha, beta =>
      let best1 := jmin best (mm (E.play chess m) alpha beta)
      let beta1 := jmin beta best1
      if JNum.leb beta1 alpha then best1
      else searchMin E mm chess rest best1 alpha beta1

/-- minimax (chessAi.ts lines 31-65): at depth zero or a finished game return the
static evaluation; with no legal moves return the static evaluation; otherwise run
the maximizing loop for white to move (best starting at negative infinity) or the
minimizing loop for black (best starting at positive infinity). -/
def minimax {σ : Type} (E : Engine σ) : Nat → σ → JNum → JNum → JNum
  | 0, chess, _, _ => JNum.fin (evaluatePosition E chess)
  | d + 1, chess, alpha, beta =>
      if E.isGameOver chess then JNum.fin (evaluatePosition E chess)
      else
        let moves := E.movesVerbose chess
        if moves.isEmpty then JNum.fin (evaluatePosition E chess)
        else if E.turn chess = Color.w then
          searchMax E (minimax E d) chess moves JNum.ninf alpha beta
        else
          searchMin E (minimax E d) chess moves JNum.pinf alpha beta

/-- getBestMoveFromFen (chessAi.ts lines 68-115): load the position (the constructor
throw on a malformed string is the Except.error case), return none when there are no
legal moves, otherwise fold over the shuffled move list keeping the best score for
the mover; the shuffle produced by sorting with a random comparator is passed in as
a function parameter.  Math.max(0, depth - 1) is the truncated subtraction on Nat.
The final record keeps from, to and promotion of the best move. -/
def getBestMoveFromFen {σ : Type} (E : Engine σ)
    (shuffle : List MoveRec → List MoveRec) (fenStr : String) (depth : Nat) :
    Except String (Option MoveInput) :=
  match E.load fenStr with
  | Except.error e => Except.error e
  | Except.ok chess =>
      let moves := E.movesVerbose chess
      if moves.isEmpty then Except.ok none
      else
        let shuffled := shuffle moves
        let start : Option MoveRec × JNum :=
          (none, if E.turn chess = Color.w then JNum.ninf else JNum.pinf)
        let result := shuffled.foldl
          (fun acc m =>
            let score := minimax E (depth - 1) (E.play chess m) JNum.ninf JNum.pinf
            if m.color = Color.w then
              if JNum.ltb acc.2 score then (some m, score) else acc
            else
              if JNum.ltb score acc.2 then (some m, score) else acc)
          start
        match result.1 with
        | none => Except.ok none
        | some bm =>
            Except.ok (some { fromSq := bm.fromSq, toSq := bm.toSq,
                              promotion := bm.promotion })

/-- Participant role (services/socket.ts). -/
inductive Role where
  | player
  | spectator
deriving DecidableEq

/-- Participant (services/socket.ts): opaque player token, assigned color when a
player, and role. -/
structure Participant where
  playerId : String
  color : Option Color
  role : Role
deriving DecidableEq

/-- The state field of GameStatus on the wire (services/socket.ts). -/
inductive GamePhase where
  | waiting
  | active
  | finished
deriving DecidableEq

/-- The status block of the authoritative snapshot (services/socket.ts). -/
structure RemoteStatus where
  state : GamePhase
  winner : Option Color
  reason : Option String
  isCheck : Bool
deriving DecidableEq

/-- Public player info inside the authoritative snapshot (services/socket.ts). -/
structure PlayerPublic where
  name : Option String
  color : Color
  present : Bool
deriving DecidableEq

/-- Clock block of the authoritative snapshot (services/socket.ts). -/
structure ClocksState where
  initialMs : Int
  incrementMs : Int
  wRemainingMs : Int
  bRemainingMs : Int
  activeColor : Option Color
  running : Bool
deriving DecidableEq

/-- GameState (services/socket.ts): the full authoritative snapshot mirrored by the
client.  The history entries are untyped on the wire and modelled as strings. -/
structure GameState where
  gameId : String
  fen : String
  pgn : String
  turn : Color
  moveCursor : Int
  history : List String
  status : RemoteStatus
  playersW : PlayerPublic
  playersB : PlayerPublic
  clocks : ClocksState
  createdAt : String
  updatedAt : String
deriving DecidableEq

/-- ConnectionState (useMultiplayer.ts lines 13-17). -/
inductive ConnectionState where
  | idle
  | connecting
  | connected
  | error (message : String)
deriving DecidableEq

/-- MultiplayerState (useMultiplayer.ts lines 19-25). -/
structure MultiplayerState where
  connection : ConnectionState
  gameId : Option String
  participant : Option Participant
  latestState : Option GameState
  lastError : Option String
deriving DecidableEq

/-- The move payload handed to sendMove. -/
structure MovePayload where
  fromSq : String
  toSq : String
  promotion : Option String
deriving DecidableEq

/-- The acknowledgment payload the server delivers for a move request. -/
structure MoveAck where
  ok : Bool
  message : Option String
  state : Option GameState
deriving DecidableEq

/-- The value sendMove resolves its promise with. -/
structure SendMoveResult where
  ok : Bool
  message : Option String
  state : Option GameState
deriving DecidableEq

/-- sendMove (useMultiplayer.ts lines 252-300).  Socket existence and connectedness
are passed as booleans; the acknowledgment the transport will deliver is passed as
data, with none modelling an absent ack payload (matching the optional chaining in
the source).  Local guard failures resolve immediately with a descriptive reason and
no state change; before the emit the promise body clears lastError; an ack that is
missing or carries ok false only sets lastError, leaving the mirrored snapshot
untouched; a successful ack replaces the mirror with the ack state when one is
present. -/
def sendMove (socketExists socketConnected : Bool) (cur : MultiplayerState)
    (payload : MovePayload) (ack : Option MoveAck) :
    SendMoveResult × MultiplayerState :=
  if !socketExists then
    ({ ok := false, message := some "Socket not initialized", state := none }, cur)
  else if !socketConnected then
    ({ ok := false, message := some "Not connected", state := none }, cur)
  else
    match cur.gameId with
    | none => ({ ok := false, message := some "Not in a game", state := none }, cur)
    | some _ =>
        match cur.participant with
        | none =>
            ({ ok := false, message := some "Missing player token", state := none }, cur)
        | some part =>
            if part.role ≠ Role.player ∨ part.color = none then
              ({ ok := false, message := some "Spectators cannot move", state := none },
                cur)
            else
              let s1 : MultiplayerState := { cur with lastError := none }
              match ack with
              | none =>
                  ({ ok := false, message := none, state := none },
                    { s1 with lastError := some "Move rejected by server" })
              | some a =>
                  if a.ok = false then
                    ({ ok := false, message := a.message, state := none },
                      { s1 with
                          lastError := some (a.message.getD "Move rejected by server") })
                  else
                    match a.state with
                    | some gs =>
                        ({ ok := true, message := none, state := some gs },
                          { s1 with latestState := some gs })
                    | none => ({ ok := true, message := none, state := none }, s1)

/-- The unsolicited full-state push handler (useMultiplayer.ts lines 330-337):
stores the pushed snapshot wholesale as the new mirror, refreshes the game id from
the payload and clears the last error. -/
def onGameState (payload : GameState) (s : MultiplayerState) : MultiplayerState :=
  { s with
      gameId := some payload.gameId
      latestState := some payload
      lastError := none }

/-- The one legal request of the ToyA engine. -/
def mvA : MoveInput := { fromSq := "a1", toSq := "a2", promotion := none }

/-- Side to move of a ToyA state: alternates starting from white. -/
def toyTurn (s : List MoveInput) : Color :=
  if s.length % 2 = 0 then Color.w else Color.b

/-- Builds the Move record the toy engines report for a request. -/
def mkRec (mv : MoveInput) (c : Color) : MoveRec :=
  { color := c
    fromSq := mv.fromSq
    toSq := mv.toSq
    promotion := mv.promotion
    san := mv.fromSq ++ mv.toSq }

/-- Legal moves of a ToyA state: the single canonical move until three plies have
been played, none afterwards. -/
def toyAMoves (s : List MoveInput) : List MoveRec :=
  if s.length ≥ 3 then [] else [mkRec mvA (toyTurn s)]

/-- Move history of a ToyA state, oldest first, colors alternating from white. -/
def toyAHistory (s : List MoveInput) : List MoveRec :=
  s.reverse.enum.map (fun p => mkRec p.2 (if p.1 % 2 = 0 then Color.w else Color.b))

/-- Modelled from the spec: a small deterministic Rules Engine instance (states are
the stack of applied requests, a game lasts three plies, notation strings encode the
ply count) used to instantiate the engine interface in witnesses.  Rejected requests
throw a generic error, as the engine in use does. -/
def ToyA : Engine (List MoveInput) :=
  { init := []
    move := fun s mv =>
      if mv = mvA ∧ s.length < 3 then
        Except.ok (some (mkRec mvA (toyTurn s), mvA :: s))
      else Except.error "Invalid move"
    play := fun s m =>
      { fromSq := m.fromSq, toSq := m.toSq, promotion := m.promotion } :: s
    undo := fun s =>
      match s with
      | [] => none
      | mv :: rest => some (mkRec mv (toyTurn rest), rest)
    load := fun str =>
      if str = "0" then Except.ok []
      else if str = "1" then Except.ok [mvA]
      else if str = "2" then Except.ok [mvA, mvA]
      else if str = "3plus" then Except.ok [mvA, mvA, mvA]
      else Except.error "Invalid FEN"
    fen := fun s =>
      match s.length with
      | 0 => "0"
      | 1 => "1"
      | 2 => "2"
      | _ => "3plus"
    history := toyAHistory
    movesVerbose := toyAMoves
    movesSan := fun s => (toyAMoves s).map (fun m => m.san)
    isCheckmate := fun _ => false
    isStalemate := fun _ => false
    isDraw := fun _ => false
    isCheck := fun _ => false
    isGameOver := fun s => (toyAMoves s).isEmpty
    turn := toyTurn
    board := fun _ => [some (PieceType.p, Color.w)] }

/-- One promotion candidate of the ToyB position. -/
def promoRec (p : PromotionPiece) : MoveRec :=
  { color := Color.w
    fromSq := "a7"
    toSq := "a8"
    promotion := some p
    san := "a8" }

/-- The four legal moves of the ToyB position: the four promotion variants of the
pawn move a7 to a8. -/
def toyBMoves : List MoveRec :=
  [promoRec PromotionPiece.q, promoRec PromotionPiece.r,
   promoRec PromotionPiece.b, promoRec PromotionPiece.n]

/-- Modelled from the spec: a Rules Engine position in the promotion-ambiguous case
of spec section 4.1 (a pawn on the back rank emits exactly four candidate moves, one
per promotion piece).  Request matching follows the object-move rule of the engine
in use: a candidate matches when from and to agree and, for a promotion candidate,
the request carries that promotion piece; an unmatched request is rejected with a
thrown generic error, the same for the promotion-ambiguous request as for any other
illegal request. -/
def ToyB : Engine Unit :=
  { init := ()
    move := fun _ mv =>
      match toyBMoves.find? (fun r =>
          decide (r.fromSq = mv.fromSq) && decide (r.toSq = mv.toSq) &&
            (decide (r.promotion = none) || decide (mv.promotion = r.promotion))) with
      | some r => Except.ok (some (r, ()))
      | none => Except.error "Invalid move"
    play := fun s _ => s
    undo := fun _ => none
    load := fun str => if str = "PB" then Except.ok () else Except.error "Invalid FEN"
    fen := fun _ => "PB"
    history := fun _ => []
    movesVerbose := fun _ => toyBMoves
    movesSan := fun _ => toyBMoves.map (fun m => m.san)
    isCheckmate := fun _ => false
    isStalemate := fun _ => false
    isDraw := fun _ => false
    isCheck := fun _ => false
    isGameOver := fun _ => false
    turn := fun _ => Color.w
    board := fun _ => [] }

/-- The request shuttling from position P to position Q in ToyD. -/
def mvPQ : MoveInput := { fromSq := "p", toSq := "q", promotion := none }

/-- The request shuttling from position Q back to position P in ToyD. -/
def mvQP : MoveInput := { fromSq := "q", toSq := "p", promotion := none }

/-- Side to move of a ToyD state (the state is the list of visited position keys,
current first, so the ply count is the length minus one). -/
def toyDTurn (s : List String) : Color :=
  if (s.length - 1) % 2 = 0 then Color.w else Color.b

/-- Legal moves of a ToyD state: shuttle between the two positions P and Q. -/
def toyDMoves (s : List String) : List MoveRec :=
  match s.head? with
  | some "P" => [mkRec mvPQ (toyDTurn s)]
  | some "Q" => [mkRec mvQP (toyDTurn s)]
  | _ => []

/-- Modelled from the spec: a Rules Engine instance whose draw predicate implements
threefold repetition over the positions the instance itself has visited, the way
the engine in use does; consequently a fresh instance loaded from a bare notation
string has seen only that one position and never reports a repetition draw.  Two
positions P and Q shuttle into each other forever. -/
def ToyD : Engine (List String) :=
  { init := ["P"]
    move := fun s mv =>
      match s.head? with
      | some "P" =>
          if mv = mvPQ then Except.ok (some (mkRec mvPQ (toyDTurn s), "Q" :: s))
          else Except.error "Invalid move"
      | some "Q" =>
          if mv = mvQP then Except.ok (some (mkRec mvQP (toyDTurn s), "P" :: s))
          else Except.error "Invalid move"
      | _ => Except.error "Invalid move"
    play := fun s _ => s
    undo := fun _ => none
    load := fun str =>
      if str = "P" ∨ str = "Q" then Except.ok [str] else Except.error "Invalid FEN"
    fen := fun s => s.head?.getD ""
    history := fun s => List.replicate (s.length - 1) (mkRec mvPQ Color.w)
    movesVerbose := toyDMoves
    movesSan := fun s => (toyDMoves s).map (fun m => m.san)
    isCheckmate := fun _ => false
    isStalemate := fun _ => false
    isDraw := fun s => decide (3 ≤ s.count (s.head?.getD ""))
    isCheck := fun _ => false
    isGameOver := fun s => decide (3 ≤ s.count (s.head?.getD ""))
    turn := toyDTurn
    board := fun _ => [] }

/-- Decidable equality for Except values, so that concrete engine results can be
evaluated inside witnesses. -/
instance exceptDecEq {ε α : Type} [DecidableEq ε] [DecidableEq α] :
    DecidableEq (Except ε α)
  | Except.error e1, Except.error e2 =>
      if h : e1 = e2 then isTrue (by rw [h])
      else isFalse (by intro hc; cases hc; exact h rfl)
  | Except.error _, Except.ok _ => isFalse (by intro hc; cases hc)
  | Except.ok _, Except.error _ => isFalse (by intro hc; cases hc)
  | Except.ok a1, Except.ok a2 =>
      if h : a1 = a2 then isTrue (by rw [h])
      else isFalse (by intro hc; cases hc; exact h rfl)

/-- C5: every successful makeMove call clears the redo stack, and a redo call with an
empty redo stack returns false and performs no mutation at all (position, history,
redo stack and clock are returned exactly as they were). -/
theorem makeMove_clears_redo_and_empty_redo_no_mutation {σ : Type} (E : Engine σ)
    (st : SessionState σ) (mv : MoveInput) :
    (∀ r : MoveRec, (makeMove E st mv).1 = MoveOutcome.ok r →
      (makeMove E st mv).2.redo = []) ∧
    (st.redo = [] → redo E st = (Except.ok false, st)) := by
  constructor
  · intro r hr
    cases h : E.move st.engine mv with
    | error e => rw [makeMove, h] at hr; cases hr
    | ok o =>
        cases o with
        | none => rw [makeMove, h] at hr; cases hr
        | some p => rw [makeMove, h]
  · intro hempty
    rw [redo, hempty]
    rfl

/-- C5 witness: at a concrete ToyA session with a non-empty redo stack a successful
makeMove leaves an empty redo stack, and redo on a session with an empty redo stack
returns false with the state unchanged. -/
theorem makeMove_clears_redo_and_empty_redo_no_mutation_witness :
    (makeMove ToyA
        { initialSession ToyA 60000 with redo := [mvA] } mvA).2.redo = [] ∧
    redo ToyA (initialSession ToyA 60000) =
      (Except.ok false, initialSession ToyA 60000) :=
  ⟨(makeMove_clears_redo_and_empty_redo_no_mutation ToyA
      { initialSession ToyA 60000 with redo := [mvA] } mvA).1
      (mkRec mvA Color.w) rfl,
   (makeMove_clears_redo_and_empty_redo_no_mutation ToyA
      (initialSession ToyA 60000) mvA).2 rfl⟩

/-- C10: whenever the pre-move history state is empty (the initial state, or a state
reached by undoing every played move), any successful makeMove sets the clock
running flag to true, regardless of the flag having been false beforehand (the
source computes running as the old flag or-ed with the emptiness of the pre-move
history). -/
theorem makeMove_empty_history_starts_clock {σ : Type} (E : Engine σ)
    (st : SessionState σ) (mv : MoveInput) (r : MoveRec)
    (hhist : st.history = [])
    (hok : (makeMove E st mv).1 = MoveOutcome.ok r) :
    (makeMove E st mv).2.clock.running = true := by
  cases h : E.move st.engine mv with
  | error e => rw [makeMove, h] at hok; cases hok
  | ok o =>
      cases o with
      | none => rw [makeMove, h] at hok; cases hok
      | some p =>
          rw [makeMove, h]
          simp [hhist]

/-- C10 witness: from the initial ToyA session, whose clock is paused and whose
history is empty, the first successful move starts the clock. -/
theorem makeMove_empty_history_starts_clock_witness :
    (makeMove ToyA (initialSession ToyA 60000) mvA).2.clock.running = true :=
  makeMove_empty_history_starts_clock ToyA (initialSession ToyA 60000) mvA
    (mkRec mvA Color.w) rfl rfl

/-- The clock used by the concrete ten-tick computation of C6. -/
def clock60 : ClockState :=
  { initialMs := 60000, whiteMs := 60000, blackMs := 60000, running := true }

/-- C6: while the status is playing and the clock is running, a tick decrements only
the active color by 250 ms clamped at 0 (never negative) and leaves the inactive
color unchanged; ten ticks applied to the active color starting from 60000 ms leave
it at exactly 57500 ms with the inactive color untouched. -/
theorem clock_tick_decrements_active_only (c : ClockState) (inCheck : Bool)
    (hrun : c.running = true) :
    ((clockTick (GameStatus.playing inCheck) Color.w c).whiteMs =
        max 0 (c.whiteMs - 250) ∧
      (clockTick (GameStatus.playing inCheck) Color.w c).blackMs = c.blackMs ∧
      0 ≤ (clockTick (GameStatus.playing inCheck) Color.w c).whiteMs) ∧
    ((clockTick (GameStatus.playing inCheck) Color.b c).blackMs =
        max 0 (c.blackMs - 250) ∧
      (clockTick (GameStatus.playing inCheck) Color.b c).whiteMs = c.whiteMs ∧
      0 ≤ (clockTick (GameStatus.playing inCheck) Color.b c).blackMs) ∧
    ((clockTick (GameStatus.playing false) Color.w)^[10] clock60).whiteMs = 57500 ∧
    ((clockTick (GameStatus.playing false) Color.w)^[10] clock60).blackMs = 60000 := by
  refine ⟨⟨?_, ?_, ?_⟩, ⟨?_, ?_, ?_⟩, ?_, ?_⟩
  · simp [clockTick, hrun]
  · simp [clockTick, hrun]
  · simp [clockTick, hrun]
  · simp [clockTick, hrun]
  · simp [clockTick, hrun]
  · simp [clockTick, hrun]
  · decide
  · decide

/-- C6 witness: the theorem applied to the concrete running 60000 ms clock. -/
theorem clock_tick_decrements_active_only_witness :
    (clockTick (GameStatus.playing false) Color.w clock60).whiteMs =
        max 0 (clock60.whiteMs - 250) ∧
    (clockTick (GameStatus.playing false) Color.w clock60).blackMs =
        clock60.blackMs :=
  ⟨((clock_tick_decrements_active_only clock60 false rfl).1).1,
   ((clock_tick_decrements_active_only clock60 false rfl).1).2.1⟩

/-- C7: loadFromFen is all-or-nothing.  When the text parses, the position is
replaced wholesale by the freshly constructed instance, history and the redo stack
are cleared (a fresh instance has an empty history) and the clock is paused keeping
its times; when the constructor throws, the failure message is returned and every
piece of prior state, clock included, is untouched. -/
theorem loadFromFen_all_or_nothing {σ : Type} (E : Engine σ) (st : SessionState σ)
    (text : String) :
    (∀ chess : σ, E.load text = Except.ok chess → E.history chess = [] →
      (loadFromFen E st text).1 = LoadOutcome.ok ∧
      (loadFromFen E st text).2.engine = chess ∧
      (loadFromFen E st text).2.fen = E.fen chess ∧
      (loadFromFen E st text).2.history = [] ∧
      (loadFromFen E st text).2.redo = [] ∧
      (loadFromFen E st text).2.lastMove = none ∧
      (loadFromFen E st text).2.clock = { st.clock with running := false }) ∧
    (∀ e : String, E.load text = Except.error e →
      loadFromFen E st text = (LoadOutcome.err e, st)) := by
  constructor
  · intro chess hload hfresh
    rw [loadFromFen, hload]
    exact ⟨rfl, rfl, rfl, hfresh, rfl, rfl, rfl⟩
  · intro e hload
    rw [loadFromFen, hload]

/-- C7 witness: on the ToyA session after one move, loading the initial notation
string succeeds and resets everything with a paused clock, while loading a malformed
string fails and returns the session exactly as it was. -/
theorem loadFromFen_all_or_nothing_witness :
    ((loadFromFen ToyA (makeMove ToyA (initialSession ToyA 60000) mvA).2 "0").1 =
        LoadOutcome.ok ∧
      (loadFromFen ToyA (makeMove ToyA (initialSession ToyA 60000) mvA).2 "0").2.redo
        = [] ∧
      (loadFromFen ToyA (makeMove ToyA (initialSession ToyA 60000) mvA).2
          "0").2.clock.running = false) ∧
    loadFromFen ToyA (makeMove ToyA (initialSession ToyA 60000) mvA).2 "zz" =
      (LoadOutcome.err "Invalid FEN",
        (makeMove ToyA (initialSession ToyA 60000) mvA).2) := by
  refine ⟨⟨?_, ?_, ?_⟩, ?_⟩
  · exact ((loadFromFen_all_or_nothing ToyA
      (makeMove ToyA (initialSession ToyA 60000) mvA).2 "0").1 [] (by decide) rfl).1
  · exact ((loadFromFen_all_or_nothing ToyA
      (makeMove ToyA (initialSession ToyA 60000) mvA).2 "0").1 [] (by decide) rfl).2.2.2.2.1
  · have h := ((loadFromFen_all_or_nothing ToyA
      (makeMove ToyA (initialSession ToyA 60000) mvA).2 "0").1 [] (by decide) rfl).2.2.2.2.2.2
    rw [h]
  · exact (loadFromFen_all_or_nothing ToyA
      (makeMove ToyA (initialSession ToyA 60000) mvA).2 "zz").2 "Invalid FEN" (by decide)

/-- The session sitting on the ToyB promotion-ambiguous position. -/
def sB : SessionState Unit := initialSession ToyB 60000

/-- C1 counterexample: at the promotion-ambiguous position, the request a7 to a8
without a promotion piece matches all four legal promotion candidates, yet makeMove
returns exactly the same generic failure value, with the session state unchanged, as
it does for a request matching no legal move at all; the result type of makeMove has
only the two shapes ok and err, so no PromotionRequired condition distinguishable
from a generic illegal-move rejection exists. -/
theorem makeMove_promotion_ambiguous_indistinguishable :
    (toyBMoves.filter (fun r =>
        decide (r.fromSq = "a7") && decide (r.toSq = "a8"))).length = 4 ∧
    makeMove ToyB sB { fromSq := "a7", toSq := "a8", promotion := none } =
      (MoveOutcome.err "Invalid move", sB) ∧
    makeMove ToyB sB { fromSq := "a1", toSq := "a2", promotion := none } =
      (MoveOutcome.err "Invalid move", sB) ∧
    makeMove ToyB sB { fromSq := "a7", toSq := "a8", promotion := none } =
      makeMove ToyB sB { fromSq := "a1", toSq := "a2", promotion := none } := by
  refine ⟨by decide, by decide, by decide, by decide⟩

/-- C1 amended: when the engine rejects a move request — as it does, with a thrown
generic error, for a promotion-ambiguous request lacking a promotion piece — makeMove
returns an explicit failure carrying only the message string (the same err
constructor as any illegal-move rejection, there being no separate PromotionRequired
case in the result type) and leaves the session state entirely unchanged, consuming
no turn; the same holds for a null-return rejection, surfaced as the fixed Illegal
move message. -/
theorem makeMove_rejection_generic_and_state_unchanged {σ : Type} (E : Engine σ)
    (st : SessionState σ) (mv : MoveInput) :
    (∀ e : String, E.move st.engine mv = Except.error e →
      makeMove E st mv = (MoveOutcome.err e, st)) ∧
    (E.move st.engine mv = Except.ok none →
      makeMove E st mv = (MoveOutcome.err "Illegal move", st)) := by
  constructor
  · intro e h
    rw [makeMove, h]
  · intro h
    rw [makeMove, h]

/-- C1 witness: the amended theorem applied at the ToyB position to a request that
matches no candidate at all. -/
theorem makeMove_rejection_generic_and_state_unchanged_witness :
    makeMove ToyB sB { fromSq := "c2", toSq := "c4", promotion := none } =
      (MoveOutcome.err "Invalid move", sB) :=
  (makeMove_rejection_generic_and_state_unchanged ToyB sB
    { fromSq := "c2", toSq := "c4", promotion := none }).1 "Invalid move" (by decide)

/-- A session whose redo stack holds a request the engine rejects by throwing. -/
def sC : SessionState Unit :=
  { initialSession ToyB 60000 with
      redo := [{ fromSq := "h1", toSq := "h2", promotion := none }] }

/-- C2: evaluating redo at a redo stack whose last entry the engine rejects by
throwing: the source pops the stack and calls chess.move with no try/catch, so the
rejection escapes redo as an exception (the Except.error result) instead of the
explicit false return the null check after the call was written to produce; the
stack stays popped. -/
theorem redo_raises_on_engine_rejection :
    redo ToyB sC =
      (Except.error "Invalid move", { sC with redo := [] }) := by
  decide

/-- The concrete mirrored snapshot used by the C8 witness. -/
def gs0 : GameState :=
  { gameId := "g1"
    fen := "startpos"
    pgn := ""
    turn := Color.w
    moveCursor := 0
    history := []
    status := { state := GamePhase.active, winner := none, reason := none,
                isCheck := false }
    playersW := { name := some "alice", color := Color.w, present := true }
    playersB := { name := some "bob", color := Color.b, present := true }
    clocks := { initialMs := 60000, incrementMs := 0, wRemainingMs := 60000,
                bRemainingMs := 60000, activeColor := some Color.w, running := true }
    createdAt := "t0"
    updatedAt := "t0" }

/-- The pushed snapshot used by the C8 witness. -/
def gs1 : GameState :=
  { gs0 with fen := "afterpush", updatedAt := "t1" }

/-- The multiplayer client state used by the C8 witness: connected, in a game, as
the white player, already holding a mirrored snapshot. -/
def mp0 : MultiplayerState :=
  { connection := ConnectionState.connected
    gameId := some "g1"
    participant := some { playerId := "tok", color := some Color.w,
                          role := Role.player }
    latestState := some gs0
    lastError := none }

/-- C8: a sendMove acknowledgment that is missing or carries ok false never mutates
the mirrored snapshot — nor the game id, participant or connection, only the
surfaced error text — and this holds on every early-guard failure path as well; and
every unsolicited full-state push replaces the mirror wholesale with the pushed
snapshot, whatever the mirror held before. -/
theorem sendMove_fail_keeps_mirror_and_push_replaces_wholesale
    (socketExists socketConnected : Bool) (cur : MultiplayerState)
    (payload : MovePayload) (ack : Option MoveAck)
    (hfail : ∀ a : MoveAck, ack = some a → a.ok = false) :
    ((sendMove socketExists socketConnected cur payload ack).2.latestState =
        cur.latestState ∧
      (sendMove socketExists socketConnected cur payload ack).2.gameId = cur.gameId ∧
      (sendMove socketExists socketConnected cur payload ack).2.participant =
        cur.participant ∧
      (sendMove socketExists socketConnected cur payload ack).2.connection =
        cur.connection) ∧
    (∀ (push : GameState) (s : MultiplayerState),
      (onGameState push s).latestState = some push ∧
      (onGameState push s).gameId = some push.gameId ∧
      (onGameState push s).participant = s.participant ∧
      (onGameState push s).connection = s.connection) := by
  constructor
  · cases hack : ack with
    | none =>
        rw [sendMove]
        repeat' split
        all_goals try exact ⟨rfl, rfl, rfl, rfl⟩
        all_goals simp_all
    | some a =>
        have ha : a.ok = false := hfail a hack
        rw [sendMove]
        repeat' split
        all_goals try exact ⟨rfl, rfl, rfl, rfl⟩
        all_goals simp_all
  · intro push s
    exact ⟨rfl, rfl, rfl, rfl⟩

/-- C8 witness: the theorem applied to the concrete connected client holding a
mirrored snapshot, with a rejected acknowledgment, and to a concrete push. -/
theorem sendMove_fail_keeps_mirror_and_push_replaces_wholesale_witness :
    (sendMove true true mp0 { fromSq := "e2", toSq := "e4", promotion := none }
        (some { ok := false, message := some "not your turn", state := none })
      ).2.latestState = mp0.latestState ∧
    (onGameState gs1 mp0).latestState = some gs1 :=
  ⟨((sendMove_fail_keeps_mirror_and_push_replaces_wholesale true true mp0
      { fromSq := "e2", toSq := "e4", promotion := none }
      (some { ok := false, message := some "not your turn", state := none })
      (fun a ha => by cases ha; rfl)).1).1,
   (((sendMove_fail_keeps_mirror_and_push_replaces_wholesale true true mp0
      { fromSq := "e2", toSq := "e4", promotion := none }
      (some { ok := false, message := some "not your turn", state := none })
      (fun a ha => by cases ha; rfl)).2 gs1 mp0).1)⟩

/-- The ToyD session after four played moves shuttling P, Q, P, Q, P: the live
instance has visited position P three times. -/
def stD : SessionState (List String) :=
  (makeMove ToyD
    (makeMove ToyD
      (makeMove ToyD
        (makeMove ToyD (initialSession ToyD 60000) mvPQ).2 mvQP).2 mvPQ).2 mvQP).2

/-- C3 counterexample: after the session has played four moves shuttling between two
positions, the live engine instance — which holds the move history threaded through
the session — satisfies threefold repetition and reports a draw, yet the status the
session derives is playing, because deriveStatus is evaluated on a fresh instance
reconstructed from the bare notation string of the current position, which has seen
that position only once. -/
theorem sessionStatus_ignores_threaded_history :
    ToyD.isDraw stD.engine = true ∧
    stD.fen = "P" ∧
    sessionStatus ToyD stD = some (GameStatus.playing false) ∧
    sessionStatus ToyD stD ≠ some GameStatus.draw := by
  refine ⟨by decide, by decide, by decide, by decide⟩

/-- C3 amended: the status of a session is a function of its bare notation string
alone (two sessions with equal fen fields always derive the same status, whatever
their histories), and on the instance reconstructed from that string deriveStatus
reports checkmate exactly when the side to move has no legal moves and is in check,
with the non-moving side as winner; stalemate exactly when there are no legal moves
and no check; and draw exactly when moves remain and the reconstructed instance
satisfies the engine draw predicate — under which threefold repetition over the
session history can never be seen, the fresh instance having no history. -/
theorem deriveStatus_characterization {σ : Type} (E : Engine σ)
    (st1 st2 : SessionState σ) (chess : σ)
    (hfen : st1.fen = st2.fen)
    (hload : E.load st1.fen = Except.ok chess)
    (hmate : E.isCheckmate chess = (decide (E.movesVerbose chess = []) &&
      E.isCheck chess))
    (hstale : E.isStalemate chess = (decide (E.movesVerbose chess = []) &&
      !(E.isCheck chess))) :
    sessionStatus E st1 = sessionStatus E st2 ∧
    sessionStatus E st1 = some (deriveStatus E chess) ∧
    (deriveStatus E chess = GameStatus.checkmate (E.turn chess).other ↔
      (E.movesVerbose chess = [] ∧ E.isCheck chess = true)) ∧
    (deriveStatus E chess = GameStatus.stalemate ↔
      (E.movesVerbose chess = [] ∧ E.isCheck chess = false)) ∧
    (deriveStatus E chess = GameStatus.draw ↔
      (E.movesVerbose chess ≠ [] ∧ E.isDraw chess = true)) := by
  refine ⟨by rw [sessionStatus, sessionStatus, hfen], ?_, ?_, ?_, ?_⟩
  · rw [sessionStatus, hload]
  · rw [deriveStatus]
    by_cases hm : E.movesVerbose chess = []
    · cases hc : E.isCheck chess
      · rw [hmate, hstale]
        simp [hm, hc]
      · rw [hmate]
        simp [hm, hc]
    · rw [hmate, hstale]
      cases hd : E.isDraw chess
      · simp [hm, hd]
      · simp [hm, hd]
  · rw [deriveStatus]
    by_cases hm : E.movesVerbose chess = []
    · cases hc : E.isCheck chess
      · rw [hmate, hstale]
        simp [hm, hc]
      · rw [hmate]
        simp [hm, hc]
    · rw [hmate, hstale]
      cases hd : E.isDraw chess
      · simp [hm, hd]
      · simp [hm, hd]
  · rw [deriveStatus]
    by_cases hm : E.movesVerbose chess = []
    · cases hc : E.isCheck chess
      · rw [hmate, hstale]
        simp [hm, hc]
      · rw [hmate]
        simp [hm, hc]
    · rw [hmate, hstale]
      cases hd : E.isDraw chess
      · simp [hm, hd]
      · simp [hm, hd]

/-- C3 witness: the amended theorem applied to two concrete ToyA sessions sharing
the initial notation string but carrying different history fields. -/
theorem deriveStatus_characterization_witness :
    sessionStatus ToyA (initialSession ToyA 60000) =
      sessionStatus ToyA
        { initialSession ToyA 60000 with history := [mkRec mvA Color.w] } ∧
    sessionStatus ToyA (initialSession ToyA 60000) =
      some (deriveStatus ToyA []) :=
  ⟨(deriveStatus_characterization ToyA (initialSession ToyA 60000)
      { initialSession ToyA 60000 with history := [mkRec mvA Color.w] } []
      rfl (by decide) (by decide) (by decide)).1,
   (deriveStatus_characterization ToyA (initialSession ToyA 60000)
      { initialSession ToyA 60000 with history := [mkRec mvA Color.w] } []
      rfl (by decide) (by decide) (by decide)).2.1⟩

/-- Pushing onto the redo stack appends at the end; popping reads the appended
element back. -/
theorem getLast?_append_single {α : Type} (l : List α) (a : α) :
    (l ++ [a]).getLast? = some a := by
  simp only [List.getLast?_append, List.getLast?_singleton]
  rfl

/-- C4: from any session in sync with its engine instance (the fen and history state
mirror the instance, as every session operation maintains) holding at least one
played move, undo followed immediately by redo restores the pre-undo position
(engine instance and fen), history and redo stack exactly, and redo reports true.
The two engine-side hypotheses state what the undo and replay of the engine in use
do: undoing yields the previous instance together with the undone record, and
replaying the undone record from-to-promotion request on that instance reproduces
the same record and the original instance. -/
theorem undo_redo_restores {σ : Type} (E : Engine σ) (st : SessionState σ)
    (m : MoveRec) (s2 : σ)
    (hsyncF : st.fen = E.fen st.engine)
    (hsyncH : st.history = E.history st.engine)
    (hundo : E.undo st.engine = some (m, s2))
    (hredo :
      E.move s2 { fromSq := m.fromSq, toSq := m.toSq, promotion := m.promotion } =
        Except.ok (some (m, st.engine))) :
    (redo E (undo E st).2).1 = Except.ok true ∧
    (redo E (undo E st).2).2.engine = st.engine ∧
    (redo E (undo E st).2).2.fen = st.fen ∧
    (redo E (undo E st).2).2.history = st.history ∧
    (redo E (undo E st).2).2.redo = st.redo ∧
    (redo E (undo E st).2).2.clock = st.clock := by
  have h1 : (undo E st).2 =
      { st with
          engine := s2
          redo := st.redo ++ [{ fromSq := m.fromSq, toSq := m.toSq,
                                promotion := m.promotion }]
          lastMove := none
          fen := E.fen s2
          history := E.history s2 } := by
    rw [undo, hundo]
  rw [h1, redo]
  simp only [getLast?_append_single, List.dropLast_append_cons, List.dropLast_single,
    List.append_nil]
  rw [hredo]
  exact ⟨rfl, rfl, hsyncF.symm, hsyncH.symm, rfl, rfl⟩

/-- C4 witness: the theorem applied to the concrete ToyA session holding one played
move. -/
theorem undo_redo_restores_witness :
    (redo ToyA (undo ToyA (makeMove ToyA (initialSession ToyA 60000) mvA).2).2).1 =
      Except.ok true ∧
    (redo ToyA (undo ToyA (makeMove ToyA (initialSession ToyA 60000) mvA).2).2
      ).2.engine = (makeMove ToyA (initialSession ToyA 60000) mvA).2.engine ∧
    (redo ToyA (undo ToyA (makeMove ToyA (initialSession ToyA 60000) mvA).2).2
      ).2.redo = (makeMove ToyA (initialSession ToyA 60000) mvA).2.redo := by
  have h := undo_redo_restores ToyA (makeMove ToyA (initialSession ToyA 60000) mvA).2
    (mkRec mvA Color.w) [] rfl rfl (by decide) (by decide)
  exact ⟨h.1, h.2.1, h.2.2.2.2.1⟩

/-- Math.max of negative infinity or a finite score with a finite score is finite. -/
theorem jmax_fin_right (b : JNum) (q : ℚ)
    (hb : b = JNum.ninf ∨ ∃ p : ℚ, b = JNum.fin p) :
    ∃ r : ℚ, jmax b (JNum.fin q) = JNum.fin r := by
  rcases hb with h | ⟨p, h⟩
  · subst h
    exact ⟨q, rfl⟩
  · subst h
    rw [jmax]
    by_cases hpq : p < q
    · refine ⟨q, ?_⟩
      simp [JNum.ltb, hpq]
    · refine ⟨p, ?_⟩
      simp [JNum.ltb, hpq]

/-- Math.min of positive infinity or a finite score with a finite score is finite. -/
theorem jmin_fin_right (b : JNum) (q : ℚ)
    (hb : b = JNum.pinf ∨ ∃ p : ℚ, b = JNum.fin p) :
    ∃ r : ℚ, jmin b (JNum.fin q) = JNum.fin r := by
  rcases hb with h | ⟨p, h⟩
  · subst h
    exact ⟨q, rfl⟩
  · subst h
    rw [jmin]
    by_cases hqp : q < p
    · refine ⟨q, ?_⟩
      simp [JNum.ltb, hqp]
    · refine ⟨p, ?_⟩
      simp [JNum.ltb, hqp]

/-- The maximizing loop returns a finite score whenever its recursive evaluator
always does and either the move list is non-empty with best starting at negative
infinity (the entry configuration) or best is already finite. -/
theorem searchMax_fin {σ : Type} (E : Engine σ) (f : σ → JNum → JNum → JNum)
    (hf : ∀ (s : σ) (a b : JNum), ∃ q : ℚ, f s a b = JNum.fin q) :
    ∀ (l : List MoveRec) (chess : σ) (best alpha beta : JNum),
      ((l ≠ [] ∧ best = JNum.ninf) ∨ (∃ q : ℚ, best = JNum.fin q)) →
      ∃ q : ℚ, searchMax E f chess l best alpha beta = JNum.fin q := by
  intro l
  induction l with
  | nil =>
      intro chess best alpha beta h
      rcases h with ⟨hne, _⟩ | ⟨q, hq⟩
      · exact absurd rfl hne
      · refine ⟨q, ?_⟩
        simp only [searchMax]
        exact hq
  | cons m rest ih =>
      intro chess best alpha beta h
      obtain ⟨qr, hqr⟩ := hf (E.play chess m) alpha beta
      have hb1 : ∃ q1 : ℚ,
          jmax best (f (E.play chess m) alpha beta) = JNum.fin q1 := by
        rw [hqr]
        apply jmax_fin_right
        rcases h with ⟨_, hbn⟩ | hb
        · exact Or.inl hbn
        · exact Or.inr hb
      obtain ⟨q1, hq1⟩ := hb1
      simp only [searchMax, hq1]
      by_cases hcut : JNum.leb beta (jmax alpha (JNum.fin q1)) = true
      · rw [if_pos hcut]
        exact ⟨q1, rfl⟩
      · rw [if_neg hcut]
        exact ih chess (JNum.fin q1) (jmax alpha (JNum.fin q1)) beta
          (Or.inr ⟨q1, rfl⟩)

/-- The minimizing loop returns a finite score under the symmetric conditions. -/
theorem searchMin_fin {σ : Type} (E : Engine σ) (f : σ → JNum → JNum → JNum)
    (hf : ∀ (s : σ) (a b : JNum), ∃ q : ℚ, f s a b = JNum.fin q) :
    ∀ (l : List MoveRec) (chess : σ) (best alpha beta : JNum),
      ((l ≠ [] ∧ best = JNum.pinf) ∨ (∃ q : ℚ, best = JNum.fin q)) →
      ∃ q : ℚ, searchMin E f chess l best alpha beta = JNum.fin q := by
  intro l
  induction l with
  | nil =>
      intro chess best alpha beta h
      rcases h with ⟨hne, _⟩ | ⟨q, hq⟩
      · exact absurd rfl hne
      · refine ⟨q, ?_⟩
        simp only [searchMin]
        exact hq
  | cons m rest ih =>
      intro chess best alpha beta h
      obtain ⟨qr, hqr⟩ := hf (E.play chess m) alpha beta
      have hb1 : ∃ q1 : ℚ,
          jmin best (f (E.play chess m) alpha beta) = JNum.fin q1 := by
        rw [hqr]
        apply jmin_fin_right
        rcases h with ⟨_, hbn⟩ | hb
        · exact Or.inl hbn
        · exact Or.inr hb
      obtain ⟨q1, hq1⟩ := hb1
      simp only [searchMin, hq1]
      by_cases hcut : JNum.leb (jmin beta (JNum.fin q1)) alpha = true
      · rw [if_pos hcut]
        exact ⟨q1, rfl⟩
      · rw [if_neg hcut]
        exact ih chess (JNum.fin q1) alpha (jmin beta (JNum.fin q1))
          (Or.inr ⟨q1, rfl⟩)

/-- Minimax always produces a finite score: the base cases return static
evaluations, and each loop combines finite recursive scores starting from the
appropriate infinity over a non-empty move list. -/
theorem minimax_fin {σ : Type} (E : Engine σ) :
    ∀ (d : Nat) (chess : σ) (alpha beta : JNum),
      ∃ q : ℚ, minimax E d chess alpha beta = JNum.fin q := by
  intro d
  induction d with
  | zero =>
      intro chess alpha beta
      exact ⟨evaluatePosition E chess, by simp only [minimax]⟩
  | succ d ih =>
      intro chess alpha beta
      simp only [minimax]
      by_cases hg : E.isGameOver chess = true
      · rw [if_pos hg]
        exact ⟨evaluatePosition E chess, rfl⟩
      · rw [if_neg hg]
        by_cases hm : (E.movesVerbose chess).isEmpty = true
        · rw [if_pos hm]
          exact ⟨evaluatePosition E chess, rfl⟩
        · rw [if_neg hm]
          have hne : E.movesVerbose chess ≠ [] := by
            intro hnil
            rw [hnil] at hm
            exact hm rfl
          by_cases ht : E.turn chess = Color.w
          · rw [if_pos ht]
            exact searchMax_fin E (minimax E d) ih (E.movesVerbose chess) chess
              JNum.ninf alpha beta (Or.inl ⟨hne, rfl⟩)
          · rw [if_neg ht]
            exact searchMin_fin E (minimax E d) ih (E.movesVerbose chess) chess
              JNum.pinf alpha beta (Or.inl ⟨hne, rfl⟩)

/-- C9: on any loadable position with zero legal moves the advisor returns none,
and on any position with exactly one legal move it returns that move for every
depth.  The shuffle is any permutation-producing function (the random sort of the
source), which therefore fixes the singleton list; the single move carries the
color of the side to move, as every generated move does. -/
theorem advisor_zero_and_one_move {σ : Type} (E : Engine σ)
    (shuffle : List MoveRec → List MoveRec) (f : String) (chess : σ)
    (hload : E.load f = Except.ok chess)
    (hperm : ∀ l : List MoveRec, List.Perm (shuffle l) l) :
    (E.movesVerbose chess = [] →
      ∀ depth : Nat, getBestMoveFromFen E shuffle f depth = Except.ok none) ∧
    (∀ m : MoveRec, E.movesVerbose chess = [m] → m.color = E.turn chess →
      ∀ depth : Nat,
        getBestMoveFromFen E shuffle f depth =
          Except.ok (some { fromSq := m.fromSq, toSq := m.toSq,
                            promotion := m.promotion })) := by
  constructor
  · intro hz depth
    simp [getBestMoveFromFen, hload, hz]
  · intro m hone hcol depth
    have hsh : shuffle [m] = [m] := List.perm_singleton.mp (hperm [m])
    obtain ⟨q, hq⟩ :=
      minimax_fin E (depth - 1) (E.play chess m) JNum.ninf JNum.pinf
    cases ht : E.turn chess with
    | w =>
        rw [ht] at hcol
        simp [getBestMoveFromFen, hload, hone, hsh, hq, hcol, ht, JNum.ltb]
    | b =>
        rw [ht] at hcol
        simp [getBestMoveFromFen, hload, hone, hsh, hq, hcol, ht, JNum.ltb]

/-- C9 witness: the theorem applied to the ToyA engine with the identity shuffle, at
the exhausted position (no legal moves) and at the initial position (exactly one
legal move), both at depth 2. -/
theorem advisor_zero_and_one_move_witness :
    getBestMoveFromFen ToyA id "3plus" 2 = Except.ok none ∧
    getBestMoveFromFen ToyA id "0" 2 =
      Except.ok (some { fromSq := "a1", toSq := "a2", promotion := none }) := by
  constructor
  · exact (advisor_zero_and_one_move ToyA id "3plus" [mvA, mvA, mvA] (by decide)
      (fun l => List.Perm.refl l)).1 (by decide) 2
  · exact (advisor_zero_and_one_move ToyA id "0" [] (by decide)
      (fun l => List.Perm.refl l)).2 (mkRec mvA Color.w) (by decide) (by decide) 2

end ChessCore
